import Mathlib

/-
  Verification development for teeproxy (src/teeproxy.go), a traffic-duplicating
  reverse proxy.  The Go program duplicates each inbound request, rewrites the
  session cookie of the shadow copy on a session-cache hit, dispatches the
  primary copy synchronously (relaying its response to the caller) and the
  shadow copy in a detached goroutine, recording the session correlation in a
  go-cache instance.

  The embedding below is shallow: Go strings are Lean strings (all the relevant
  processing is byte/ASCII level, done here on the underlying character list),
  Go header maps are association lists, the go-cache store is an association
  list with expiry timestamps, and the network dispatches are inputs (outcomes)
  to the modelled handler.  A small explicit heap models Go pointer/slice
  allocation where aliasing is the point of the claim (DuplicateRequest).
-/

/-! ## Go string helpers (net/textproto, strings) -/

/-- The double-quote character (byte 0x22). -/
def quoteChar : Char := Char.ofNat 34

/-- ASCII space per Go net/textproto isASCIISpace: space, tab, newline, carriage return. -/
def isSpaceChar (c : Char) : Bool :=
  c == ' ' || c == Char.ofNat 9 || c == Char.ofNat 10 || c == Char.ofNat 13

/-- Go textproto.TrimString: strip leading and trailing ASCII space. -/
def trimString (s : String) : String :=
  ⟨((s.data.dropWhile isSpaceChar).reverse.dropWhile isSpaceChar).reverse⟩

/-- Split a character list at every occurrence of the separator character.
Models the repeated strings.Cut loop of Go readCookies over a Cookie header
line (equivalently strings.Split for a one-character separator). -/
def splitListOn (sep : Char) : List Char → List (List Char)
  | [] => [[]]
  | c :: rest =>
    let r := splitListOn sep rest
    if c == sep then [] :: r
    else
      match r with
      | [] => [[c]]
      | x :: xs => (c :: x) :: xs

/-- Go strings.Cut for a one-character separator: the part before the first
occurrence and the part after it (everything, and empty, when absent). -/
def cutAtChar (sep : Char) : List Char → List Char × List Char
  | [] => ([], [])
  | c :: rest =>
    if c == sep then ([], rest)
    else
      let p := cutAtChar sep rest
      (c :: p.1, p.2)

/-- Go strings.EqualFold restricted to ASCII, which is all the program compares. -/
def eqFold (a b : String) : Bool :=
  a.data.map Char.toLower == b.data.map Char.toLower

/-! ## Go net/http cookie machinery -/

/-- Valid HTTP token character, per Go httpguts.IsTokenRune. -/
def isTokenChar (c : Char) : Bool :=
  c.isAlphanum || c == '!' || c == '#' || c == '$' || c == '%' || c == '&' ||
  c == Char.ofNat 39 || c == '*' || c == '+' || c == '-' || c == '.' ||
  c == Char.ofNat 94 || c == '_' || c == Char.ofNat 96 || c == '|' || c == Char.ofNat 126

/-- Go net/http isCookieNameValid. -/
def isCookieNameValid (raw : String) : Bool :=
  !raw.data.isEmpty && raw.data.all isTokenChar

/-- Go net/http validCookieValueByte: printable ASCII except double quote,
semicolon and backslash. -/
def validCookieValueByte (c : Char) : Bool :=
  32 ≤ c.toNat && c.toNat < 127 && c.toNat != 34 && c.toNat != 59 && c.toNat != 92

/-- Go net/http parseCookieValue with allowDoubleQuote: strip one pair of
surrounding double quotes, then require every byte to be valid. -/
def parseCookieValue (raw : String) : Option String :=
  let l := raw.data
  let l := if l.length > 1 && l.head? == some quoteChar && l.getLast? == some quoteChar
           then (l.drop 1).dropLast else l
  if l.all validCookieValueByte then some ⟨l⟩ else none

/-- Go net/http Cookie struct (the fields teeproxy reads and writes). A cookie
parsed from a request Cookie header carries only name and value; the attribute
fields keep their zero values, exactly as in Go. -/
structure Cookie where
  name : String
  value : String
  path : String := ""
  domain : String := ""
  expires : Nat := 0
  maxAge : Int := 0
  secure : Bool := false
  httpOnly : Bool := false
deriving Repr, DecidableEq

/-- Go header map: keys (already in canonical MIME form, as the Go server
guarantees) each holding a list of values. -/
abbrev Headers := List (String × List String)

/-- Go textproto MIMEHeader.Get: first value of the key, or the empty string. -/
def headerGet (hs : Headers) (k : String) : String :=
  match List.lookup k hs with
  | some (v :: _) => v
  | _ => ""

/-- Bind a key to a fresh value list (Go map assignment semantics on the header). -/
def headerSetList (hs : Headers) (k : String) (vs : List String) : Headers :=
  if (List.lookup k hs).isSome then
    hs.map (fun p => if p.1 == k then (k, vs) else p)
  else hs ++ [(k, vs)]

/-- Go Header.Set: bind the key to the singleton value list. -/
def headerSet (hs : Headers) (k v : String) : Headers :=
  headerSetList hs k [v]

/-- Go Header.Del: remove the key. -/
def headerDel (hs : Headers) (k : String) : Headers :=
  hs.filter (fun p => p.1 != k)

/-- One name=value fragment of a Cookie header line, handled as in the loop
body of Go net/http readCookies: trim, skip empty, cut at the first equals
sign, trim and validate the name, apply the exact-match filter, then parse
the value. -/
def parseCookiePart (filter : String) (part : String) : Option Cookie :=
  let part := trimString part
  if part.data.isEmpty then none
  else
    let p := cutAtChar '=' part.data
    let name := trimString ⟨p.1⟩
    if !isCookieNameValid name then none
    else if !filter.data.isEmpty && !(filter == name) then none
    else
      match parseCookieValue ⟨p.2⟩ with
      | some v => some { name := name, value := v }
      | none => none

/-- Go net/http readCookies: parse every Cookie header line, keeping the
cookies that pass the (exact, case-sensitive) name filter. -/
def readCookies (hs : Headers) (filter : String) : List Cookie :=
  let lines := (List.lookup "Cookie" hs).getD []
  (lines.map (fun line =>
    (splitListOn ';' (trimString line).data).filterMap
      (fun part => parseCookiePart filter ⟨part⟩))).flatten

/-- Go (*Request).Cookie: the first cookie whose name matches exactly, if any
(the handler only checks the returned cookie against nil). -/
def reqCookie (hs : Headers) (name : String) : Option Cookie :=
  if name.data.isEmpty then none
  else (readCookies hs name).head?

/-- Go net/http sanitizeCookieName: newline and carriage return become dashes. -/
def sanitizeCookieName (n : String) : String :=
  ⟨n.data.map (fun c => if c == Char.ofNat 10 || c == Char.ofNat 13 then '-' else c)⟩

/-- Go net/http sanitizeCookieValue: drop invalid bytes, then quote the value
when it contains a space or comma. -/
def sanitizeCookieValue (v : String) : String :=
  let l := v.data.filter validCookieValueByte
  if l.isEmpty then ⟨l⟩
  else if l.any (fun c => c == ' ' || c == ',') then ⟨quoteChar :: (l ++ [quoteChar])⟩
  else ⟨l⟩

/-- The name=value serialization AddCookie writes into the Cookie header. -/
def cookieSerialize (c : Cookie) : String :=
  sanitizeCookieName c.name ++ "=" ++ sanitizeCookieValue c.value

/-- Go (*Request).AddCookie on the Cookie header: append to an existing header
value joined by a semicolon and space, else set it. -/
def addCookie (hs : Headers) (c : Cookie) : Headers :=
  let s := cookieSerialize c
  let existing := headerGet hs "Cookie"
  if !existing.data.isEmpty then headerSet hs "Cookie" (existing ++ "; " ++ s)
  else headerSet hs "Cookie" s

/-! ## Session affinity cache (go-cache as used by main and the handler) -/

/-- One stored go-cache item: a value with its absolute expiry instant. -/
structure CacheEntry where
  value : String
  expires : Nat
deriving Repr, DecidableEq

/-- The SessionCache contents. -/
abbrev Cache := List (String × CacheEntry)

/-- go-cache Get at an instant: the stored value unless the item has expired
(expired items behave exactly like absent ones). -/
def cacheGet (c : Cache) (now : Nat) (k : String) : Option String :=
  match List.lookup k c with
  | some e => if now > e.expires then none else some e.value
  | none => none

/-- The default expiration main configures: cache.New with a 24 hour horizon
(in seconds here; the sweep interval only reclaims memory and is not modelled). -/
def defaultCacheTTL : Nat := 86400

/-- go-cache Set with cache.DefaultExpiration: overwrite the key, stamping a
fresh expiry of now plus the default horizon. -/
def cacheSet (c : Cache) (now : Nat) (k v : String) : Cache :=
  (k, ⟨v, now + defaultCacheTTL⟩) :: c.filter (fun p => p.1 != k)

/-! ## Requests, responses, dispatch outcomes -/

/-- Value-level view of a Go http.Request as teeproxy builds and consumes it.
The inbound body is a stream and is passed to the handler separately; the
body field of a duplicated request is its materialized buffer. -/
structure Request where
  method : String
  url : String
  proto : String
  protoMajor : Nat
  protoMinor : Nat
  header : Headers
  body : List Nat
  host : String
  contentLength : Int
deriving Repr, DecidableEq

/-- A backend response.  The cookies field is the result of Go resp.Cookies()
(stdlib Set-Cookie parsing, an external collaborator per the spec); the body
field is the byte sequence ioutil.ReadAll obtains. -/
structure Response where
  statusCode : Nat
  header : Headers
  cookies : List Cookie
  body : List Nat
deriving Repr, DecidableEq

/-- Outcome of one dispatch (DialTimeout, then Write, then Read) against a
backend, as the handler observes it. -/
inductive DispatchResult where
  | connectFail
  | sendFail
  | recvFail
  | success (resp : Response)
deriving Repr, DecidableEq

/-- True on every dispatch outcome other than a successful read. -/
def dispatchFailed : DispatchResult → Bool
  | .success _ => false
  | _ => true

/-- What happened inside the detached shadow goroutine: its dispatch sequence
ran to an outcome, or some unexpected panic was raised (and caught by the
deferred recover at the goroutine boundary). -/
inductive ShadowOutcome where
  | ran (r : DispatchResult)
  | panicked
deriving Repr, DecidableEq

/-- True when the shadow unit did not obtain a response. -/
def shadowFailed : ShadowOutcome → Bool
  | .ran (.success _) => false
  | _ => true

/-! ## The handler pipeline (ServeHTTP, lines 36-135) -/

/-- The designated session cookie name (line 39). -/
def sessionCookieName : String := "PHPSESSID"

/-- Value-level DuplicateRequest (lines 169-211): io.Copy fans the inbound body
stream into two buffers and its error value is discarded, the header mapping is
deep-copied into each copy (value semantics here; the allocation structure is
modelled separately below), and method, URL, host and content length are taken
verbatim while the protocol is pinned to HTTP/1.1.  First component is
request1 (the alternative/shadow copy), second is request2 (production). -/
def duplicateVal (req : Request) (streamBytes : List Nat) (streamErr : Bool) :
    Request × Request :=
  let _ := streamErr
  ( { method := req.method, url := req.url, proto := "HTTP/1.1", protoMajor := 1,
      protoMinor := 1, header := req.header, body := streamBytes, host := req.host,
      contentLength := req.contentLength },
    { method := req.method, url := req.url, proto := "HTTP/1.1", protoMajor := 1,
      protoMinor := 1, header := req.header, body := streamBytes, host := req.host,
      contentLength := req.contentLength } )

/-- The replacement cookie built on a cache hit (lines 48-57): every attribute
is taken from the cookie found in the inbound request, only the value is the
mapped alternative session id (Sprintf of the cached string is the string). -/
def alternateCookieOf (c : Cookie) (sid : String) : Cookie :=
  { name := c.name, value := sid, path := c.path, domain := c.domain,
    expires := c.expires, maxAge := c.maxAge, secure := c.secure,
    httpOnly := c.httpOnly }

/-- The cookie lookup and shadow rewrite (lines 39-63): read the session cookie
from the inbound request; on a cache hit delete the Cookie header of the
alternative copy and add the replacement cookie; otherwise leave it alone.
The production copy is never touched here. -/
def rewriteShadow (cache : Cache) (now : Nat) (origHeader : Headers)
    (altReq : Request) : Request :=
  match reqCookie origHeader sessionCookieName with
  | none => altReq
  | some c =>
    match cacheGet cache now c.value with
    | none => altReq
    | some sid =>
      { altReq with
        header := addCookie (headerDel altReq.header "Cookie")
                            (alternateCookieOf c sid) }

/-- FindCookie (lines 160-167): first cookie of the response whose name equals
the wanted name under strings.EqualFold. -/
def FindCookie (resp : Response) (cookieName : String) : Option Cookie :=
  resp.cookies.find? (fun c => eqFold c.name cookieName)

/-- The body of the detached goroutine (lines 92-129) given its outcome: each
failed step returns after a debug-gated log line, a panic is recovered at the
boundary (logged only under debug), and only a successful read with both the
production reference cookie and an alternative session cookie present writes
the session mapping into the cache. -/
def shadowUnit (cache : Cache) (now : Nat) (debug : Bool)
    (productionCookie : Option Cookie) (outcome : ShadowOutcome) :
    Cache × List String :=
  match outcome with
  | .panicked => (cache, if debug then ["Recovered in f"] else [])
  | .ran .connectFail => (cache, if debug then ["Failed to connect"] else [])
  | .ran .sendFail => (cache, if debug then ["Failed to send"] else [])
  | .ran .recvFail => (cache, if debug then ["Failed to receive"] else [])
  | .ran (.success altResp) =>
    match productionCookie with
    | some pc =>
      match FindCookie altResp sessionCookieName with
      | some ac => (cacheSet cache now pc.value ac.value, [])
      | none => (cache, [])
    | none => (cache, [])

/-- The header relay loop (lines 85-87): every key of the response header is
bound in the caller-facing header, which starts out empty. -/
def copyHeaders (dst : Headers) (src : Headers) : Headers :=
  src.foldl (fun d p => headerSetList d p.1 p.2) dst

/-- Everything one call of ServeHTTP leaves behind, observably: what was
written to the caller, the two duplicated requests as dispatched (the shadow
one after any rewrite), whether the detached shadow unit was started, the
cache contents afterwards, and the debug log lines of the shadow unit. -/
structure ServeResult where
  callerStatus : Option Nat
  callerHeaders : Headers
  callerBody : List Nat
  primaryRequest : Request
  shadowRequest : Request
  shadowStarted : Bool
  cache : Cache
  shadowLogs : List String
deriving Repr, DecidableEq

/-- ServeHTTP (lines 36-135).  The network is abstracted by the primary
dispatch outcome and the shadow goroutine outcome; now is the cache clock.
A primary connect, send or receive failure returns before anything is written
to the caller and before the goroutine is started (lines 66-82); on success
the reference cookie is captured, status and headers are relayed and the body
streamed (lines 84-90), and the detached unit runs shadowUnit (lines 92-129). -/
def serveHTTP (cache : Cache) (now : Nat) (debug : Bool) (req : Request)
    (streamBytes : List Nat) (streamErr : Bool)
    (primaryResult : DispatchResult) (shadowOutcome : ShadowOutcome) : ServeResult :=
  let dup := duplicateVal req streamBytes streamErr
  let alternativeRequest := rewriteShadow cache now req.header dup.1
  let productionRequest := dup.2
  let aborted : ServeResult :=
    { callerStatus := none, callerHeaders := [], callerBody := [],
      primaryRequest := productionRequest, shadowRequest := alternativeRequest,
      shadowStarted := false, cache := cache, shadowLogs := [] }
  match primaryResult with
  | .connectFail => aborted
  | .sendFail => aborted
  | .recvFail => aborted
  | .success resp =>
    let productionCookie := FindCookie resp sessionCookieName
    let su := shadowUnit cache now debug productionCookie shadowOutcome
    { callerStatus := some resp.statusCode,
      callerHeaders := copyHeaders [] resp.header,
      callerBody := resp.body,
      primaryRequest := productionRequest,
      shadowRequest := alternativeRequest,
      shadowStarted := true,
      cache := su.1,
      shadowLogs := su.2 }

/-! ## Heap-level model of DuplicateRequest (lines 169-211)

Go slices, maps and the URL pointer are heap objects; aliasing between the two
copies is the substance of the duplication claims, so here allocation is
explicit: the heap holds header value slices, header maps (binding keys to
slice references), body buffers and URL objects, and a request holds
references into it. -/

/-- A net/url URL object (the fields are representative; only whole-object
replacement is needed to observe aliasing). -/
structure URLVal where
  scheme : String
  host : String
  path : String
deriving Repr, DecidableEq

/-- The explicit heap: header value slices, header maps, body buffers, URLs. -/
structure Heap where
  slices : List (List String)
  maps : List (List (String × Nat))
  bufs : List (List Nat)
  urls : List URLVal
deriving Repr, DecidableEq

/-- Allocate a header value slice, returning its reference. -/
def allocSlice (h : Heap) (v : List String) : Heap × Nat :=
  ({ h with slices := h.slices ++ [v] }, h.slices.length)

/-- Allocate a header map object, returning its reference. -/
def allocMap (h : Heap) (m : List (String × Nat)) : Heap × Nat :=
  ({ h with maps := h.maps ++ [m] }, h.maps.length)

/-- Allocate a body buffer, returning its reference. -/
def allocBuf (h : Heap) (b : List Nat) : Heap × Nat :=
  ({ h with bufs := h.bufs ++ [b] }, h.bufs.length)

/-- Read a header map object. -/
def mapObj (h : Heap) (r : Nat) : List (String × Nat) :=
  h.maps.getD r []

/-- Read a header value slice. -/
def sliceObj (h : Heap) (r : Nat) : List String :=
  h.slices.getD r []

/-- Read a body buffer. -/
def bufObj (h : Heap) (r : Nat) : List Nat :=
  h.bufs.getD r []

/-- Read a URL object. -/
def urlObj (h : Heap) (r : Nat) : URLVal :=
  h.urls.getD r ⟨"", "", ""⟩

/-- The header mapping a raw map value denotes: each key with the contents of
its value slice. -/
def denRaw (h : Heap) (m : List (String × Nat)) : Headers :=
  m.map (fun p => (p.1, sliceObj h p.2))

/-- The header mapping a map reference denotes. -/
def headerDen (h : Heap) (r : Nat) : Headers :=
  denRaw h (mapObj h r)

/-- Go map assignment on a header map object value. -/
def mapAssign (m : List (String × Nat)) (k : String) (sref : Nat) :
    List (String × Nat) :=
  if (List.lookup k m).isSome then
    m.map (fun p => if p.1 == k then (k, sref) else p)
  else m ++ [(k, sref)]

/-- Mutate a header map object in the heap: bind a key to a slice reference. -/
def setMapEntry (h : Heap) (r : Nat) (k : String) (sref : Nat) : Heap :=
  { h with maps := h.maps.set r (mapAssign (mapObj h r) k sref) }

/-- Mutate one element of a header value slice in the heap. -/
def setSliceElem (h : Heap) (r : Nat) (j : Nat) (s : String) : Heap :=
  { h with slices := h.slices.set r ((sliceObj h r).set j s) }

/-- Replace a URL object in the heap (a mutation of the pointee). -/
def setURL (h : Heap) (r : Nat) (u : URLVal) : Heap :=
  { h with urls := h.urls.set r u }

/-- Heap-level request: the scalar fields by value, the header map, body
buffer and URL by reference, exactly as in Go http.Request. -/
structure HRequest where
  method : String
  urlRef : Nat
  proto : String
  protoMajor : Nat
  protoMinor : Nat
  headerRef : Nat
  bodyRef : Nat
  host : String
  contentLength : Int
deriving Repr, DecidableEq

/-- The deep-copy loop of DuplicateRequest (lines 179-186): for each source
entry allocate one fresh slice per copy holding the source slice contents,
building the two header map values entrywise. -/
def copyEntries (h : Heap) : List (String × Nat) →
    Heap × List (String × Nat) × List (String × Nat)
  | [] => (h, [], [])
  | p :: rest =>
    let v := sliceObj h p.2
    let a1 := allocSlice h v
    let a2 := allocSlice a1.1 v
    let ce := copyEntries a2.1 rest
    (ce.1, (p.1, a1.2) :: ce.2.1, (p.1, a2.2) :: ce.2.2)

/-- DuplicateRequest (lines 169-211) over the explicit heap: fan the body
stream into two fresh buffers (the io.Copy error value is discarded), deep-copy
the header map into two fresh map objects with fresh slices, and build the two
requests sharing the original URL reference, with protocol pinned to HTTP/1.1.
First request is request1 (alternative), second request2 (production). -/
def DuplicateRequest (h : Heap) (req : HRequest) (streamBytes : List Nat)
    (streamErr : Bool) : Heap × HRequest × HRequest :=
  let _ := streamErr
  let p1 := allocBuf h streamBytes
  let p2 := allocBuf p1.1 streamBytes
  let ce := copyEntries p2.1 (mapObj p2.1 req.headerRef)
  let q1 := allocMap ce.1 ce.2.1
  let q2 := allocMap q1.1 ce.2.2
  (q2.1,
   { method := req.method, urlRef := req.urlRef, proto := "HTTP/1.1",
     protoMajor := 1, protoMinor := 1, headerRef := q1.2, bodyRef := p1.2,
     host := req.host, contentLength := req.contentLength },
   { method := req.method, urlRef := req.urlRef, proto := "HTTP/1.1",
     protoMajor := 1, protoMinor := 1, headerRef := q2.2, bodyRef := p2.2,
     host := req.host, contentLength := req.contentLength })

/-! ## List access helper lemmas -/

theorem tpGetD_set_ne {α : Type} (l : List α) (i j : Nat) (a d : α) (hne : i ≠ j) :
    (l.set i a).getD j d = l.getD j d := by
  simp [List.getD_eq_getElem?_getD, List.getElem?_set_ne hne]

theorem tpGetD_set_self {α : Type} (l : List α) (i : Nat) (a d : α) (hlt : i < l.length) :
    (l.set i a).getD i d = a := by
  simp [List.getD_eq_getElem?_getD, List.getElem?_set_self, hlt]

theorem tpGetD_append_at {α : Type} (l t : List α) (a d : α) :
    (l ++ a :: t).getD l.length d = a := by
  rw [List.getD_eq_getElem?_getD, List.getElem?_append_right (le_refl _)]
  simp

theorem tpGetD_append_two {α : Type} (l : List α) (a b d : α) :
    (l ++ [a, b]).getD l.length d = a ∧ (l ++ [a, b]).getD (l.length + 1) d = b := by
  refine ⟨tpGetD_append_at l [b] a d, ?_⟩
  have hassoc : l ++ [a, b] = (l ++ [a]) ++ b :: [] := by simp
  have hlen : (l ++ [a]).length = l.length + 1 := by simp
  rw [hassoc, ← hlen]
  exact tpGetD_append_at (l ++ [a]) [] b d

/-! ## Heap lemmas for copyEntries and DuplicateRequest -/

theorem denRaw_slices_congr (h h2 : Heap) (m : List (String × Nat))
    (hs : h.slices = h2.slices) : denRaw h m = denRaw h2 m := by
  unfold denRaw sliceObj
  rw [hs]

theorem denRaw_mono (h h2 : Heap) (m : List (String × Nat))
    (hext : ∃ ext, h2.slices = h.slices ++ ext)
    (hv : ∀ p ∈ m, p.2 < h.slices.length) : denRaw h2 m = denRaw h m := by
  obtain ⟨ext, he⟩ := hext
  unfold denRaw
  refine List.map_congr_left (fun p hp => ?_)
  unfold sliceObj
  rw [he, List.getD_append _ _ _ _ (hv p hp)]

theorem copyEntries_frame (src : List (String × Nat)) : ∀ h : Heap,
    (copyEntries h src).1.maps = h.maps ∧ (copyEntries h src).1.bufs = h.bufs ∧
    (copyEntries h src).1.urls = h.urls ∧
    ∃ ext, (copyEntries h src).1.slices = h.slices ++ ext := by
  induction src with
  | nil => intro h; exact ⟨rfl, rfl, rfl, [], by simp [copyEntries]⟩
  | cons p rest ih =>
    intro h
    obtain ⟨hm, hb, hu, ext, hs⟩ := ih (allocSlice (allocSlice h (sliceObj h p.2)).1 (sliceObj h p.2)).1
    refine ⟨hm, hb, hu, [sliceObj h p.2, sliceObj h p.2] ++ ext, ?_⟩
    simp only [copyEntries]
    rw [hs]
    simp [allocSlice]

theorem copyEntries_range (src : List (String × Nat)) : ∀ h : Heap,
    (∀ p ∈ (copyEntries h src).2.1,
       h.slices.length ≤ p.2 ∧ p.2 < (copyEntries h src).1.slices.length) ∧
    (∀ p ∈ (copyEntries h src).2.2,
       h.slices.length ≤ p.2 ∧ p.2 < (copyEntries h src).1.slices.length) := by
  induction src with
  | nil => intro h; constructor <;> (intro p hp; simp [copyEntries] at hp)
  | cons p rest ih =>
    intro h
    obtain ⟨ih1, ih2⟩ := ih (allocSlice (allocSlice h (sliceObj h p.2)).1 (sliceObj h p.2)).1
    obtain ⟨-, -, -, ext, hs⟩ :=
      copyEntries_frame rest (allocSlice (allocSlice h (sliceObj h p.2)).1 (sliceObj h p.2)).1
    simp only [allocSlice] at ih1 ih2 hs
    have hlen := congrArg List.length hs
    simp only [List.length_append, List.length_cons, List.length_nil] at hlen
    constructor <;>
    · intro q hq
      simp only [copyEntries, allocSlice, List.mem_cons] at hq
      rcases hq with rfl | hq
      · dsimp only
        simp only [copyEntries, allocSlice, List.length_append, List.length_cons,
          List.length_nil]
        omega
      · first
        | (have hb := ih1 q hq
           simp only [List.length_append, List.length_cons, List.length_nil] at hb
           simp only [copyEntries, allocSlice]
           omega)
        | (have hb := ih2 q hq
           simp only [List.length_append, List.length_cons, List.length_nil] at hb
           simp only [copyEntries, allocSlice]
           omega)

theorem denRaw_cons (h : Heap) (p : String × Nat) (m : List (String × Nat)) :
    denRaw h (p :: m) = (p.1, sliceObj h p.2) :: denRaw h m := rfl

theorem copyEntries_disj (src : List (String × Nat)) : ∀ h : Heap,
    ∀ p ∈ (copyEntries h src).2.1, ∀ q ∈ (copyEntries h src).2.2, p.2 ≠ q.2 := by
  induction src with
  | nil => intro h p hp; simp [copyEntries] at hp
  | cons e rest ih =>
    intro h p hp q hq
    obtain ⟨ir1, ir2⟩ :=
      copyEntries_range rest (allocSlice (allocSlice h (sliceObj h e.2)).1 (sliceObj h e.2)).1
    simp only [allocSlice, List.length_append, List.length_cons, List.length_nil] at ir1 ir2
    simp only [copyEntries, allocSlice, List.mem_cons] at hp hq
    rcases hp with rfl | hp <;> rcases hq with rfl | hq
    · dsimp only
      simp only [List.length_append, List.length_cons, List.length_nil]
      omega
    · have := (ir2 q hq).1
      dsimp only
      omega
    · have := (ir1 p hp).1
      dsimp only
      simp only [List.length_append, List.length_cons, List.length_nil]
      omega
    · exact ih _ p hp q hq

theorem copyEntries_den (src : List (String × Nat)) : ∀ h : Heap,
    (∀ p ∈ src, p.2 < h.slices.length) →
    denRaw (copyEntries h src).1 (copyEntries h src).2.1 = denRaw h src ∧
    denRaw (copyEntries h src).1 (copyEntries h src).2.2 = denRaw h src := by
  induction src with
  | nil => intro h _; exact ⟨rfl, rfl⟩
  | cons e rest ih =>
    intro h hv
    have hvrest : ∀ q ∈ rest,
        q.2 < ((allocSlice (allocSlice h (sliceObj h e.2)).1 (sliceObj h e.2)).1).slices.length := by
      intro q hq
      have := hv q (List.mem_cons_of_mem _ hq)
      simp only [allocSlice, List.length_append, List.length_cons, List.length_nil]
      omega
    obtain ⟨id1, id2⟩ := ih _ hvrest
    obtain ⟨-, -, -, ext, hs⟩ :=
      copyEntries_frame rest (allocSlice (allocSlice h (sliceObj h e.2)).1 (sliceObj h e.2)).1
    have hmono :
        denRaw (allocSlice (allocSlice h (sliceObj h e.2)).1 (sliceObj h e.2)).1 rest
          = denRaw h rest := by
      refine denRaw_mono h _ rest ⟨[sliceObj h e.2] ++ [sliceObj h e.2], by simp [allocSlice]⟩
        (fun q hq => hv q (List.mem_cons_of_mem _ hq))
    simp only [allocSlice] at id1 id2 hs hmono
    have hv1 : sliceObj (copyEntries
        { h with slices := h.slices ++ [sliceObj h e.2] ++ [sliceObj h e.2] } rest).1
        h.slices.length = sliceObj h e.2 := by
      show (copyEntries
          { h with slices := h.slices ++ [sliceObj h e.2] ++ [sliceObj h e.2] }
          rest).1.slices.getD h.slices.length [] = sliceObj h e.2
      rw [hs]
      rw [show h.slices ++ [sliceObj h e.2] ++ [sliceObj h e.2] ++ ext
            = h.slices ++ sliceObj h e.2 :: (sliceObj h e.2 :: ext) by simp]
      exact tpGetD_append_at _ _ _ _
    have hv2 : sliceObj (copyEntries
        { h with slices := h.slices ++ [sliceObj h e.2] ++ [sliceObj h e.2] } rest).1
        (h.slices.length + 1) = sliceObj h e.2 := by
      show (copyEntries
          { h with slices := h.slices ++ [sliceObj h e.2] ++ [sliceObj h e.2] }
          rest).1.slices.getD (h.slices.length + 1) [] = sliceObj h e.2
      rw [hs]
      rw [show h.slices ++ [sliceObj h e.2] ++ [sliceObj h e.2] ++ ext
            = (h.slices ++ [sliceObj h e.2]) ++ sliceObj h e.2 :: ext by simp]
      rw [show h.slices.length + 1 = (h.slices ++ [sliceObj h e.2]).length by simp]
      exact tpGetD_append_at _ _ _ _
    constructor
    · simp only [copyEntries, allocSlice]
      rw [denRaw_cons, denRaw_cons]
      dsimp only
      rw [hv1, id1.trans hmono]
    · simp only [copyEntries, allocSlice]
      rw [denRaw_cons, denRaw_cons]
      dsimp only
      rw [show (h.slices ++ [sliceObj h e.2]).length = h.slices.length + 1 by simp]
      rw [hv2, id2.trans hmono]

theorem headerDen_setMapEntry_ne (h : Heap) (r r2 : Nat) (k : String) (sref : Nat)
    (hne : r ≠ r2) : headerDen (setMapEntry h r2 k sref) r = headerDen h r := by
  show denRaw (setMapEntry h r2 k sref)
      ((setMapEntry h r2 k sref).maps.getD r []) = denRaw h (h.maps.getD r [])
  have hmaps : (setMapEntry h r2 k sref).maps.getD r [] = h.maps.getD r [] := by
    show (h.maps.set r2 (mapAssign (mapObj h r2) k sref)).getD r [] = h.maps.getD r []
    exact tpGetD_set_ne _ _ _ _ _ (Ne.symm hne)
  rw [hmaps]
  exact denRaw_slices_congr _ _ _ rfl

theorem headerDen_setSliceElem_notin (h : Heap) (r sref j : Nat) (s : String)
    (hnot : ∀ p ∈ mapObj h r, p.2 ≠ sref) :
    headerDen (setSliceElem h sref j s) r = headerDen h r := by
  show denRaw (setSliceElem h sref j s)
      ((setSliceElem h sref j s).maps.getD r []) = denRaw h (h.maps.getD r [])
  have hmaps : (setSliceElem h sref j s).maps = h.maps := rfl
  rw [hmaps]
  refine List.map_congr_left (fun p hp => ?_)
  have hpne : p.2 ≠ sref := hnot p hp
  show (p.1, (setSliceElem h sref j s).slices.getD p.2 []) = (p.1, h.slices.getD p.2 [])
  have : ((h.slices.set sref ((sliceObj h sref).set j s))).getD p.2 []
      = h.slices.getD p.2 [] := tpGetD_set_ne _ _ _ _ _ (Ne.symm hpne)
  rw [show (setSliceElem h sref j s).slices
        = h.slices.set sref ((sliceObj h sref).set j s) from rfl, this]

theorem DupReq_scalars (h : Heap) (req : HRequest) (sb : List Nat) (se : Bool) :
    (DuplicateRequest h req sb se).2.1.method = req.method ∧
    (DuplicateRequest h req sb se).2.2.method = req.method ∧
    (DuplicateRequest h req sb se).2.1.urlRef = req.urlRef ∧
    (DuplicateRequest h req sb se).2.2.urlRef = req.urlRef ∧
    (DuplicateRequest h req sb se).2.1.host = req.host ∧
    (DuplicateRequest h req sb se).2.2.host = req.host ∧
    (DuplicateRequest h req sb se).2.1.contentLength = req.contentLength ∧
    (DuplicateRequest h req sb se).2.2.contentLength = req.contentLength ∧
    (DuplicateRequest h req sb se).2.1.proto = "HTTP/1.1" ∧
    (DuplicateRequest h req sb se).2.1.protoMajor = 1 ∧
    (DuplicateRequest h req sb se).2.1.protoMinor = 1 ∧
    (DuplicateRequest h req sb se).2.2.proto = "HTTP/1.1" ∧
    (DuplicateRequest h req sb se).2.2.protoMajor = 1 ∧
    (DuplicateRequest h req sb se).2.2.protoMinor = 1 :=
  ⟨rfl, rfl, rfl, rfl, rfl, rfl, rfl, rfl, rfl, rfl, rfl, rfl, rfl, rfl⟩

theorem DupReq_urls (h : Heap) (req : HRequest) (sb : List Nat) (se : Bool) :
    (DuplicateRequest h req sb se).1.urls = h.urls := by
  have hfr := copyEntries_frame
      (mapObj { h with bufs := h.bufs ++ [sb] ++ [sb] } req.headerRef)
      { h with bufs := h.bufs ++ [sb] ++ [sb] }
  exact hfr.2.2.1

theorem DupReq_bufs (h : Heap) (req : HRequest) (sb : List Nat) (se : Bool) :
    bufObj (DuplicateRequest h req sb se).1 (DuplicateRequest h req sb se).2.1.bodyRef = sb ∧
    bufObj (DuplicateRequest h req sb se).1 (DuplicateRequest h req sb se).2.2.bodyRef = sb ∧
    (DuplicateRequest h req sb se).2.1.bodyRef ≠ (DuplicateRequest h req sb se).2.2.bodyRef := by
  have hfr := copyEntries_frame
      (mapObj { h with bufs := h.bufs ++ [sb] ++ [sb] } req.headerRef)
      { h with bufs := h.bufs ++ [sb] ++ [sb] }
  have hbufs : (DuplicateRequest h req sb se).1.bufs = h.bufs ++ [sb] ++ [sb] := hfr.2.1
  refine ⟨?_, ?_, ?_⟩
  · show (DuplicateRequest h req sb se).1.bufs.getD h.bufs.length [] = sb
    rw [hbufs, show h.bufs ++ [sb] ++ [sb] = h.bufs ++ [sb, sb] by simp]
    exact (tpGetD_append_two h.bufs sb sb []).1
  · show (DuplicateRequest h req sb se).1.bufs.getD (h.bufs ++ [sb]).length [] = sb
    rw [hbufs, show h.bufs ++ [sb] ++ [sb] = h.bufs ++ [sb, sb] by simp,
        show (h.bufs ++ [sb]).length = h.bufs.length + 1 by simp]
    exact (tpGetD_append_two h.bufs sb sb []).2
  · show h.bufs.length ≠ (h.bufs ++ [sb]).length
    simp

theorem DupReq_headerRefs (h : Heap) (req : HRequest) (sb : List Nat) (se : Bool) :
    mapObj (DuplicateRequest h req sb se).1 (DuplicateRequest h req sb se).2.1.headerRef
      = (copyEntries { h with bufs := h.bufs ++ [sb] ++ [sb] }
          (mapObj { h with bufs := h.bufs ++ [sb] ++ [sb] } req.headerRef)).2.1 ∧
    mapObj (DuplicateRequest h req sb se).1 (DuplicateRequest h req sb se).2.2.headerRef
      = (copyEntries { h with bufs := h.bufs ++ [sb] ++ [sb] }
          (mapObj { h with bufs := h.bufs ++ [sb] ++ [sb] } req.headerRef)).2.2 ∧
    (DuplicateRequest h req sb se).2.1.headerRef
      ≠ (DuplicateRequest h req sb se).2.2.headerRef := by
  refine ⟨?_, ?_, ?_⟩
  · show ((copyEntries { h with bufs := h.bufs ++ [sb] ++ [sb] }
        (mapObj { h with bufs := h.bufs ++ [sb] ++ [sb] } req.headerRef)).1.maps
        ++ [(copyEntries { h with bufs := h.bufs ++ [sb] ++ [sb] }
              (mapObj { h with bufs := h.bufs ++ [sb] ++ [sb] } req.headerRef)).2.1]
        ++ [(copyEntries { h with bufs := h.bufs ++ [sb] ++ [sb] }
              (mapObj { h with bufs := h.bufs ++ [sb] ++ [sb] } req.headerRef)).2.2]).getD
        (copyEntries { h with bufs := h.bufs ++ [sb] ++ [sb] }
          (mapObj { h with bufs := h.bufs ++ [sb] ++ [sb] } req.headerRef)).1.maps.length []
      = (copyEntries { h with bufs := h.bufs ++ [sb] ++ [sb] }
          (mapObj { h with bufs := h.bufs ++ [sb] ++ [sb] } req.headerRef)).2.1
    rw [show ∀ (l : List (List (String × Nat))) (a b : List (String × Nat)),
          l ++ [a] ++ [b] = l ++ [a, b] from fun l a b => by simp]
    exact (tpGetD_append_two _ _ _ _).1
  · show ((copyEntries { h with bufs := h.bufs ++ [sb] ++ [sb] }
        (mapObj { h with bufs := h.bufs ++ [sb] ++ [sb] } req.headerRef)).1.maps
        ++ [(copyEntries { h with bufs := h.bufs ++ [sb] ++ [sb] }
              (mapObj { h with bufs := h.bufs ++ [sb] ++ [sb] } req.headerRef)).2.1]
        ++ [(copyEntries { h with bufs := h.bufs ++ [sb] ++ [sb] }
              (mapObj { h with bufs := h.bufs ++ [sb] ++ [sb] } req.headerRef)).2.2]).getD
        ((copyEntries { h with bufs := h.bufs ++ [sb] ++ [sb] }
          (mapObj { h with bufs := h.bufs ++ [sb] ++ [sb] } req.headerRef)).1.maps
          ++ [(copyEntries { h with bufs := h.bufs ++ [sb] ++ [sb] }
              (mapObj { h with bufs := h.bufs ++ [sb] ++ [sb] } req.headerRef)).2.1]).length []
      = (copyEntries { h with bufs := h.bufs ++ [sb] ++ [sb] }
          (mapObj { h with bufs := h.bufs ++ [sb] ++ [sb] } req.headerRef)).2.2
    rw [show ∀ (l : List (List (String × Nat))) (a b : List (String × Nat)),
          l ++ [a] ++ [b] = l ++ [a, b] from fun l a b => by simp,
        show ∀ (l : List (List (String × Nat))) (a : List (String × Nat)),
          (l ++ [a]).length = l.length + 1 from fun l a => by simp]
    exact (tpGetD_append_two _ _ _ _).2
  · show (copyEntries { h with bufs := h.bufs ++ [sb] ++ [sb] }
        (mapObj { h with bufs := h.bufs ++ [sb] ++ [sb] } req.headerRef)).1.maps.length
      ≠ ((copyEntries { h with bufs := h.bufs ++ [sb] ++ [sb] }
          (mapObj { h with bufs := h.bufs ++ [sb] ++ [sb] } req.headerRef)).1.maps
          ++ [(copyEntries { h with bufs := h.bufs ++ [sb] ++ [sb] }
              (mapObj { h with bufs := h.bufs ++ [sb] ++ [sb] } req.headerRef)).2.1]).length
    simp

theorem DupReq_disj (h : Heap) (req : HRequest) (sb : List Nat) (se : Bool) :
    ∀ p ∈ mapObj (DuplicateRequest h req sb se).1
        (DuplicateRequest h req sb se).2.1.headerRef,
    ∀ q ∈ mapObj (DuplicateRequest h req sb se).1
        (DuplicateRequest h req sb se).2.2.headerRef, p.2 ≠ q.2 := by
  obtain ⟨e1, e2, -⟩ := DupReq_headerRefs h req sb se
  rw [e1, e2]
  exact copyEntries_disj _ _

theorem DupReq_den (h : Heap) (req : HRequest) (sb : List Nat) (se : Bool)
    (hv : ∀ p ∈ mapObj h req.headerRef, p.2 < h.slices.length) :
    headerDen (DuplicateRequest h req sb se).1
        (DuplicateRequest h req sb se).2.1.headerRef = headerDen h req.headerRef ∧
    headerDen (DuplicateRequest h req sb se).1
        (DuplicateRequest h req sb se).2.2.headerRef = headerDen h req.headerRef := by
  obtain ⟨e1, e2, -⟩ := DupReq_headerRefs h req sb se
  obtain ⟨d1, d2⟩ := copyEntries_den
      (mapObj { h with bufs := h.bufs ++ [sb] ++ [sb] } req.headerRef)
      { h with bufs := h.bufs ++ [sb] ++ [sb] } hv
  constructor
  · show denRaw (DuplicateRequest h req sb se).1
        (mapObj (DuplicateRequest h req sb se).1
          (DuplicateRequest h req sb se).2.1.headerRef) = headerDen h req.headerRef
    rw [e1]
    calc denRaw (DuplicateRequest h req sb se).1
          (copyEntries { h with bufs := h.bufs ++ [sb] ++ [sb] }
            (mapObj { h with bufs := h.bufs ++ [sb] ++ [sb] } req.headerRef)).2.1
        = denRaw (copyEntries { h with bufs := h.bufs ++ [sb] ++ [sb] }
            (mapObj { h with bufs := h.bufs ++ [sb] ++ [sb] } req.headerRef)).1
            (copyEntries { h with bufs := h.bufs ++ [sb] ++ [sb] }
            (mapObj { h with bufs := h.bufs ++ [sb] ++ [sb] } req.headerRef)).2.1 :=
          denRaw_slices_congr _ _ _ rfl
      _ = denRaw { h with bufs := h.bufs ++ [sb] ++ [sb] }
            (mapObj { h with bufs := h.bufs ++ [sb] ++ [sb] } req.headerRef) := d1
      _ = headerDen h req.headerRef := denRaw_slices_congr _ _ _ rfl
  · show denRaw (DuplicateRequest h req sb se).1
        (mapObj (DuplicateRequest h req sb se).1
          (DuplicateRequest h req sb se).2.2.headerRef) = headerDen h req.headerRef
    rw [e2]
    calc denRaw (DuplicateRequest h req sb se).1
          (copyEntries { h with bufs := h.bufs ++ [sb] ++ [sb] }
            (mapObj { h with bufs := h.bufs ++ [sb] ++ [sb] } req.headerRef)).2.2
        = denRaw (copyEntries { h with bufs := h.bufs ++ [sb] ++ [sb] }
            (mapObj { h with bufs := h.bufs ++ [sb] ++ [sb] } req.headerRef)).1
            (copyEntries { h with bufs := h.bufs ++ [sb] ++ [sb] }
            (mapObj { h with bufs := h.bufs ++ [sb] ++ [sb] } req.headerRef)).2.2 :=
          denRaw_slices_congr _ _ _ rfl
      _ = denRaw { h with bufs := h.bufs ++ [sb] ++ [sb] }
            (mapObj { h with bufs := h.bufs ++ [sb] ++ [sb] } req.headerRef) := d2
      _ = headerDen h req.headerRef := denRaw_slices_congr _ _ _ rfl

/-! ## Value-layer lemmas about the header operations and the handler -/

theorem tpLookup_cons_ne {β : Type} (k a : String) (b : β) (t : List (String × β))
    (hk : k ≠ a) : List.lookup k ((a, b) :: t) = List.lookup k t := by
  show (match k == a with
    | true => some b
    | false => List.lookup k t) = List.lookup k t
  rw [show (k == a) = false by simpa using hk]

theorem tpLookup_cons_self {β : Type} (k : String) (b : β) (t : List (String × β)) :
    List.lookup k ((k, b) :: t) = some b := by
  show (match k == k with
    | true => some b
    | false => List.lookup k t) = some b
  rw [show (k == k) = true by simp]

theorem headerDel_lookup (hs : Headers) (k : String) :
    List.lookup k (headerDel hs k) = none := by
  induction hs with
  | nil => rfl
  | cons p t ih =>
    obtain ⟨a, v⟩ := p
    show List.lookup k (List.filter (fun q => q.1 != k) ((a, v) :: t)) = none
    rw [List.filter_cons]
    by_cases hp : a = k
    · rw [if_neg (by simp [hp])]
      exact ih
    · rw [if_pos (by simpa using hp)]
      rw [tpLookup_cons_ne k a v _ (fun hk => hp hk.symm)]
      exact ih

theorem addCookie_headerDel (hs : Headers) (c : Cookie) :
    addCookie (headerDel hs "Cookie") c
      = headerSet (headerDel hs "Cookie") "Cookie" (cookieSerialize c) := by
  have hget : headerGet (headerDel hs "Cookie") "Cookie" = "" := by
    simp [headerGet, headerDel_lookup]
  unfold addCookie
  rw [hget]
  rfl

theorem rewriteShadow_hit (cache : Cache) (now : Nat) (oh : Headers) (altReq : Request)
    (c : Cookie) (sid : String)
    (hc : reqCookie oh sessionCookieName = some c)
    (hg : cacheGet cache now c.value = some sid) :
    rewriteShadow cache now oh altReq
      = { altReq with
          header := headerSet (headerDel altReq.header "Cookie") "Cookie"
              (cookieSerialize (alternateCookieOf c sid)) } := by
  unfold rewriteShadow
  rw [hc]
  dsimp only
  rw [hg]
  dsimp only
  rw [addCookie_headerDel]

theorem rewriteShadow_absent (cache : Cache) (now : Nat) (oh : Headers) (altReq : Request)
    (hc : reqCookie oh sessionCookieName = none) :
    rewriteShadow cache now oh altReq = altReq := by
  unfold rewriteShadow
  rw [hc]

theorem rewriteShadow_miss (cache : Cache) (now : Nat) (oh : Headers) (altReq : Request)
    (c : Cookie) (hc : reqCookie oh sessionCookieName = some c)
    (hg : cacheGet cache now c.value = none) :
    rewriteShadow cache now oh altReq = altReq := by
  unfold rewriteShadow
  rw [hc]
  dsimp only
  rw [hg]

theorem serveHTTP_requests (cache : Cache) (now : Nat) (debug : Bool) (req : Request)
    (sb : List Nat) (se : Bool) (pr : DispatchResult) (so : ShadowOutcome) :
    (serveHTTP cache now debug req sb se pr so).primaryRequest
        = (duplicateVal req sb se).2 ∧
    (serveHTTP cache now debug req sb se pr so).shadowRequest
        = rewriteShadow cache now req.header (duplicateVal req sb se).1 := by
  cases pr <;> exact ⟨rfl, rfl⟩

theorem tpLookup_append_none {β : Type} (k : String) (l1 l2 : List (String × β))
    (h1 : List.lookup k l1 = none) : List.lookup k (l1 ++ l2) = List.lookup k l2 := by
  induction l1 with
  | nil => rfl
  | cons p t ih =>
    obtain ⟨a, b⟩ := p
    by_cases hk : k = a
    · subst hk
      rw [tpLookup_cons_self] at h1
      cases h1
    · rw [tpLookup_cons_ne k a b t hk] at h1
      rw [List.cons_append, tpLookup_cons_ne k a b (t ++ l2) hk]
      exact ih h1

theorem copyHeaders_append (src : Headers) : ∀ dst : Headers,
    (src.map Prod.fst).Nodup → (∀ p ∈ src, List.lookup p.1 dst = none) →
    copyHeaders dst src = dst ++ src := by
  induction src with
  | nil => intro dst _ _; simp [copyHeaders]
  | cons p rest ih =>
    intro dst hnd hlk
    have hnd2 := hnd
    rw [List.map_cons, List.nodup_cons] at hnd2
    have hset : headerSetList dst p.1 p.2 = dst ++ [(p.1, p.2)] := by
      unfold headerSetList
      rw [hlk p (List.mem_cons_self _ _)]
      rfl
    have hstep : copyHeaders dst (p :: rest) = copyHeaders (dst ++ [(p.1, p.2)]) rest := by
      unfold copyHeaders
      rw [List.foldl_cons, hset]
    rw [hstep, ih (dst ++ [(p.1, p.2)]) hnd2.2 ?_]
    · simp
    · intro q hq
      rw [tpLookup_append_none q.1 dst [(p.1, p.2)] (hlk q (List.mem_cons_of_mem _ hq))]
      have hqp : q.1 ≠ p.1 := by
        intro hcontra
        exact hnd2.1 (List.mem_map.mpr ⟨q, hq, hcontra⟩)
      rw [tpLookup_cons_ne q.1 p.1 p.2 [] hqp]
      rfl

theorem shadowUnit_write (cache : Cache) (now : Nat) (debug : Bool) (pc ac : Cookie)
    (sresp : Response) (hac : FindCookie sresp sessionCookieName = some ac) :
    shadowUnit cache now debug (some pc) (.ran (.success sresp))
      = (cacheSet cache now pc.value ac.value, []) := by
  unfold shadowUnit
  dsimp only
  rw [hac]

theorem shadowUnit_noref (cache : Cache) (now : Nat) (debug : Bool) (sresp : Response) :
    shadowUnit cache now debug none (.ran (.success sresp)) = (cache, []) := rfl

theorem shadowUnit_nocookie (cache : Cache) (now : Nat) (debug : Bool) (pc : Cookie)
    (sresp : Response) (hac : FindCookie sresp sessionCookieName = none) :
    shadowUnit cache now debug (some pc) (.ran (.success sresp)) = (cache, []) := by
  unfold shadowUnit
  dsimp only
  rw [hac]

theorem shadowUnit_failed (cache : Cache) (now : Nat) (debug : Bool)
    (pco : Option Cookie) (so : ShadowOutcome) (hf : shadowFailed so = true) :
    (shadowUnit cache now debug pco so).1 = cache := by
  cases so with
  | panicked => rfl
  | ran r =>
    cases r with
    | connectFail => rfl
    | sendFail => rfl
    | recvFail => rfl
    | success sresp => simp [shadowFailed] at hf

theorem shadowUnit_logs_nodebug (cache : Cache) (now : Nat) (pco : Option Cookie)
    (so : ShadowOutcome) : (shadowUnit cache now false pco so).2 = [] := by
  cases so with
  | panicked => rfl
  | ran r =>
    cases r with
    | connectFail => rfl
    | sendFail => rfl
    | recvFail => rfl
    | success sresp =>
      cases pco with
      | none => rfl
      | some pc =>
        cases hq : FindCookie sresp sessionCookieName with
        | none => rw [shadowUnit_nocookie cache now false pc sresp hq]
        | some ac => rw [shadowUnit_write cache now false pc ac sresp hq]

/-! ## Cookie-name lemmas (case sensitivity of the lookups) -/

theorem parseCookiePart_name (filter part : String) (c : Cookie)
    (hne : filter.data.isEmpty = false)
    (h : parseCookiePart filter part = some c) : c.name = filter := by
  unfold parseCookiePart at h
  dsimp only at h
  split at h
  · simp at h
  · split at h
    · simp at h
    · split at h
      · simp at h
      · rename_i hcond
        split at h
        · rename_i v hv
          have hc := Option.some.inj h
          subst hc
          dsimp only
          have hbeq : (filter == trimString
              ⟨(cutAtChar '=' (trimString part).data).1⟩) = true := by
            rcases Bool.eq_false_or_eq_true
                (filter == trimString ⟨(cutAtChar '=' (trimString part).data).1⟩) with hb | hb
            · exact hb
            · exfalso
              apply hcond
              rw [hne, hb]
              rfl
          exact (beq_iff_eq.mp hbeq).symm
        · simp at h

theorem readCookies_names (hs : Headers) (filter : String)
    (hne : filter.data.isEmpty = false) :
    ∀ c ∈ readCookies hs filter, c.name = filter := by
  intro c hc
  unfold readCookies at hc
  rw [List.mem_flatten] at hc
  obtain ⟨l, hl, hcl⟩ := hc
  rw [List.mem_map] at hl
  obtain ⟨line, hline, rfl⟩ := hl
  rw [List.mem_filterMap] at hcl
  obtain ⟨part, hpart, hp⟩ := hcl
  exact parseCookiePart_name filter ⟨part⟩ c hne hp

theorem reqCookie_exact (hs : Headers) (name : String) (c : Cookie)
    (h : reqCookie hs name = some c) : c.name = name := by
  unfold reqCookie at h
  split at h
  · cases h
  · rename_i hne
    have hne2 : name.data.isEmpty = false := by
      simpa using hne
    have hmem : c ∈ readCookies hs name := by
      cases hl : readCookies hs name with
      | nil => rw [hl] at h; cases h
      | cons x xs =>
        rw [hl] at h
        cases h
        exact List.mem_cons_self _ _
    exact readCookies_names hs name hne2 c hmem

theorem FindCookie_eqFold (resp : Response) (name : String) (c : Cookie)
    (h : FindCookie resp name = some c) : eqFold c.name name = true := by
  have h2 : resp.cookies.find? (fun x => eqFold x.name name) = some c := h
  have h3 := List.find?_some h2
  simpa using h3

theorem FindCookie_found (resp : Response) (name : String) (c : Cookie)
    (hc : c ∈ resp.cookies) (hf : eqFold c.name name = true) :
    ∃ d, FindCookie resp name = some d := by
  have hsome : (resp.cookies.find? (fun x => eqFold x.name name)).isSome := by
    rw [List.find?_isSome]
    exact ⟨c, hc, hf⟩
  obtain ⟨d, hd⟩ := Option.isSome_iff_exists.mp hsome
  exact ⟨d, hd⟩

/-! ## Concrete fixtures used by the witness theorems -/

/-- An inbound header carrying the designated session cookie and one more key. -/
def exHeader : Headers := [("Cookie", ["PHPSESSID=abc"]), ("Accept", ["text"])]

/-- An inbound request carrying the session cookie PHPSESSID=abc. -/
def exReq : Request :=
  { method := "GET", url := "/", proto := "HTTP/1.1", protoMajor := 1, protoMinor := 1,
    header := exHeader, body := [], host := "example.com", contentLength := 0 }

/-- The parsed form of the inbound session cookie of exReq. -/
def exCookie : Cookie := { name := "PHPSESSID", value := "abc" }

/-- A cache already mapping the primary session abc to the shadow session qqq. -/
def exCacheHit : Cache := [("abc", ⟨"qqq", 50⟩)]

/-- A primary response assigning session xyz. -/
def exPResp : Response :=
  { statusCode := 200, header := [("Content-Type", ["text/html"])],
    cookies := [{ name := "PHPSESSID", value := "xyz" }], body := [104, 105] }

/-- A shadow response assigning its own session, with a differently
capitalized cookie name. -/
def exSResp : Response :=
  { statusCode := 200, header := [],
    cookies := [{ name := "PhpSessId", value := "qqq2" }], body := [] }

/-- The shadow-response session cookie of exSResp. -/
def exSCookie : Cookie := { name := "PhpSessId", value := "qqq2" }

/-- An inbound header whose session cookie name uses the wrong capitalization. -/
def exHeaderLower : Headers := [("Cookie", ["phpsessid=abc"])]

/-- Request carrying the lowercased session cookie. -/
def exReqLower : Request :=
  { method := "GET", url := "/", proto := "HTTP/1.0", protoMajor := 1, protoMinor := 0,
    header := exHeaderLower, body := [], host := "example.com", contentLength := 0 }

/-- A tiny valid heap for the heap-level witnesses. -/
def exHeap : Heap :=
  { slices := [["v1", "v2"]], maps := [[("X-A", 0)]], bufs := [[9]],
    urls := [⟨"http", "example.com", "/"⟩] }

/-- A heap-level request whose references are valid in exHeap. -/
def exHReq : HRequest :=
  { method := "GET", urlRef := 0, proto := "HTTP/1.0", protoMajor := 1, protoMinor := 0,
    headerRef := 0, bodyRef := 0, host := "example.com", contentLength := 2 }

/-! ## Claim theorems -/

/-- C1: for every inbound request, the production copy dispatched to the
primary keeps a header byte-identical to the original; on a session-cache hit
the shadow copy has its Cookie header replaced (not appended to) by the single
line carrying the mapped shadow-session value; on a miss, or when the cookie
is absent, the shadow copy keeps the duplicated header unchanged. -/
theorem teeproxy_c1 (cache : Cache) (now : Nat) (debug : Bool) (req : Request)
    (sb : List Nat) (se : Bool) (pr : DispatchResult) (so : ShadowOutcome) :
    (serveHTTP cache now debug req sb se pr so).primaryRequest.header = req.header ∧
    (∀ c sid, reqCookie req.header sessionCookieName = some c →
       cacheGet cache now c.value = some sid →
       (serveHTTP cache now debug req sb se pr so).shadowRequest.header
         = headerSet (headerDel req.header "Cookie") "Cookie"
             (cookieSerialize (alternateCookieOf c sid))) ∧
    (reqCookie req.header sessionCookieName = none →
       (serveHTTP cache now debug req sb se pr so).shadowRequest.header = req.header) ∧
    (∀ c, reqCookie req.header sessionCookieName = some c →
       cacheGet cache now c.value = none →
       (serveHTTP cache now debug req sb se pr so).shadowRequest.header = req.header) := by
  obtain ⟨hpr, hsr⟩ := serveHTTP_requests cache now debug req sb se pr so
  refine ⟨by rw [hpr]; rfl, ?_, ?_, ?_⟩
  · intro c sid hc hg
    rw [hsr, rewriteShadow_hit cache now req.header _ c sid hc hg]
    rfl
  · intro hc
    rw [hsr, rewriteShadow_absent _ _ _ _ hc]
    rfl
  · intro c hc hg
    rw [hsr, rewriteShadow_miss _ _ _ _ c hc hg]
    rfl

/-- C1 witness: on the concrete hit, the shadow Cookie header is the single
replacement line PHPSESSID=qqq. -/
theorem teeproxy_c1_witness :
    (serveHTTP exCacheHit 0 false exReq [] false .connectFail
        (.ran .connectFail)).shadowRequest.header
      = headerSet (headerDel exReq.header "Cookie") "Cookie"
          (cookieSerialize (alternateCookieOf exCookie "qqq")) :=
  (teeproxy_c1 exCacheHit 0 false exReq [] false .connectFail (.ran .connectFail)).2.1
    exCookie "qqq" (by decide) (by decide)

/-- C2: the session cache is written if and only if the primary dispatch
succeeded with a response carrying the designated session cookie, the shadow
dispatch succeeded, and the shadow response carries a session cookie of the
same designated name; the write is the mapping from the primary to the shadow
session value with a freshly stamped expiry. In every other case the cache is
left untouched. -/
theorem teeproxy_c2 (cache : Cache) (now : Nat) (debug : Bool) (req : Request)
    (sb : List Nat) (se : Bool) (pr : DispatchResult) (so : ShadowOutcome) :
    (∀ presp sresp pc ac, pr = .success presp → so = .ran (.success sresp) →
       FindCookie presp sessionCookieName = some pc →
       FindCookie sresp sessionCookieName = some ac →
       (serveHTTP cache now debug req sb se pr so).cache
         = cacheSet cache now pc.value ac.value) ∧
    (∀ presp sresp, pr = .success presp → so = .ran (.success sresp) →
       (FindCookie presp sessionCookieName = none ∨
        FindCookie sresp sessionCookieName = none) →
       (serveHTTP cache now debug req sb se pr so).cache = cache) ∧
    (dispatchFailed pr = true →
       (serveHTTP cache now debug req sb se pr so).cache = cache) ∧
    (shadowFailed so = true →
       (serveHTTP cache now debug req sb se pr so).cache = cache) := by
  refine ⟨?_, ?_, ?_, ?_⟩
  · rintro presp sresp pc ac rfl rfl h3 h4
    show (shadowUnit cache now debug (FindCookie presp sessionCookieName)
        (.ran (.success sresp))).1 = cacheSet cache now pc.value ac.value
    rw [h3, shadowUnit_write cache now debug pc ac sresp h4]
  · rintro presp sresp rfl rfl h3
    show (shadowUnit cache now debug (FindCookie presp sessionCookieName)
        (.ran (.success sresp))).1 = cache
    rcases h3 with h3 | h3
    · rw [h3, shadowUnit_noref]
    · cases hp : FindCookie presp sessionCookieName with
      | none => rw [shadowUnit_noref]
      | some pc => rw [shadowUnit_nocookie cache now debug pc sresp h3]
  · intro hfail
    cases pr with
    | connectFail => rfl
    | sendFail => rfl
    | recvFail => rfl
    | success r => simp [dispatchFailed] at hfail
  · intro hf
    cases pr with
    | connectFail => rfl
    | sendFail => rfl
    | recvFail => rfl
    | success resp =>
      exact shadowUnit_failed cache now debug (FindCookie resp sessionCookieName) so hf

/-- C2 witness: the end-to-end scenario writes xyz to qqq2 into the empty
cache with expiry now plus the default horizon. -/
theorem teeproxy_c2_witness :
    (serveHTTP [] 5 false exReq [] false (.success exPResp)
        (.ran (.success exSResp))).cache = cacheSet [] 5 "xyz" "qqq2" :=
  (teeproxy_c2 [] 5 false exReq [] false (.success exPResp) (.ran (.success exSResp))).1
    exPResp exSResp { name := "PHPSESSID", value := "xyz" } exSCookie rfl rfl
    (by decide) (by decide)

/-- C3: duplication yields two copies agreeing with the original (and with each
other) on method, URL, host, body bytes and content length, both pinned to
HTTP/1.1, whose header maps and body buffers are fresh distinct allocations:
the headers denote the same mapping as the original, and mutating one copy,
either by rebinding a header key or by writing into one of its value slices,
never changes what the other copy's header denotes. -/
theorem teeproxy_c3 (h : Heap) (req : HRequest) (sb : List Nat) (se : Bool)
    (hv : ∀ p ∈ mapObj h req.headerRef, p.2 < h.slices.length) :
    ((DuplicateRequest h req sb se).2.1.method = req.method ∧
     (DuplicateRequest h req sb se).2.2.method = req.method ∧
     (DuplicateRequest h req sb se).2.1.urlRef = req.urlRef ∧
     (DuplicateRequest h req sb se).2.2.urlRef = req.urlRef ∧
     (DuplicateRequest h req sb se).2.1.host = req.host ∧
     (DuplicateRequest h req sb se).2.2.host = req.host ∧
     (DuplicateRequest h req sb se).2.1.contentLength = req.contentLength ∧
     (DuplicateRequest h req sb se).2.2.contentLength = req.contentLength ∧
     (DuplicateRequest h req sb se).2.1.proto = "HTTP/1.1" ∧
     (DuplicateRequest h req sb se).2.1.protoMajor = 1 ∧
     (DuplicateRequest h req sb se).2.1.protoMinor = 1 ∧
     (DuplicateRequest h req sb se).2.2.proto = "HTTP/1.1" ∧
     (DuplicateRequest h req sb se).2.2.protoMajor = 1 ∧
     (DuplicateRequest h req sb se).2.2.protoMinor = 1) ∧
    (bufObj (DuplicateRequest h req sb se).1 (DuplicateRequest h req sb se).2.1.bodyRef = sb ∧
     bufObj (DuplicateRequest h req sb se).1 (DuplicateRequest h req sb se).2.2.bodyRef = sb ∧
     (DuplicateRequest h req sb se).2.1.bodyRef ≠ (DuplicateRequest h req sb se).2.2.bodyRef) ∧
    (headerDen (DuplicateRequest h req sb se).1
        (DuplicateRequest h req sb se).2.1.headerRef = headerDen h req.headerRef ∧
     headerDen (DuplicateRequest h req sb se).1
        (DuplicateRequest h req sb se).2.2.headerRef = headerDen h req.headerRef ∧
     (DuplicateRequest h req sb se).2.1.headerRef
       ≠ (DuplicateRequest h req sb se).2.2.headerRef) ∧
    (∀ k sref, headerDen
        (setMapEntry (DuplicateRequest h req sb se).1
          (DuplicateRequest h req sb se).2.2.headerRef k sref)
        (DuplicateRequest h req sb se).2.1.headerRef
      = headerDen (DuplicateRequest h req sb se).1
          (DuplicateRequest h req sb se).2.1.headerRef) ∧
    (∀ k sref, headerDen
        (setMapEntry (DuplicateRequest h req sb se).1
          (DuplicateRequest h req sb se).2.1.headerRef k sref)
        (DuplicateRequest h req sb se).2.2.headerRef
      = headerDen (DuplicateRequest h req sb se).1
          (DuplicateRequest h req sb se).2.2.headerRef) ∧
    (∀ sref ∈ (mapObj (DuplicateRequest h req sb se).1
          (DuplicateRequest h req sb se).2.2.headerRef).map Prod.snd, ∀ j s,
        headerDen (setSliceElem (DuplicateRequest h req sb se).1 sref j s)
          (DuplicateRequest h req sb se).2.1.headerRef
      = headerDen (DuplicateRequest h req sb se).1
          (DuplicateRequest h req sb se).2.1.headerRef) ∧
    (∀ sref ∈ (mapObj (DuplicateRequest h req sb se).1
          (DuplicateRequest h req sb se).2.1.headerRef).map Prod.snd, ∀ j s,
        headerDen (setSliceElem (DuplicateRequest h req sb se).1 sref j s)
          (DuplicateRequest h req sb se).2.2.headerRef
      = headerDen (DuplicateRequest h req sb se).1
          (DuplicateRequest h req sb se).2.2.headerRef) := by
  refine ⟨DupReq_scalars h req sb se, DupReq_bufs h req sb se,
    ⟨(DupReq_den h req sb se hv).1, (DupReq_den h req sb se hv).2,
     (DupReq_headerRefs h req sb se).2.2⟩, ?_, ?_, ?_, ?_⟩
  · intro k sref
    exact headerDen_setMapEntry_ne _ _ _ _ _ (DupReq_headerRefs h req sb se).2.2
  · intro k sref
    exact headerDen_setMapEntry_ne _ _ _ _ _ (Ne.symm (DupReq_headerRefs h req sb se).2.2)
  · intro sref hsref j s
    obtain ⟨q, hq, rfl⟩ := List.mem_map.mp hsref
    exact headerDen_setSliceElem_notin _ _ _ _ _
      (fun p hp => DupReq_disj h req sb se p hp q hq)
  · intro sref hsref j s
    obtain ⟨q, hq, rfl⟩ := List.mem_map.mp hsref
    exact headerDen_setSliceElem_notin _ _ _ _ _
      (fun p hp => Ne.symm (DupReq_disj h req sb se q hq p hp))

/-- C3 witness: on the concrete heap, both copies denote the original header. -/
theorem teeproxy_c3_witness :
    headerDen (DuplicateRequest exHeap exHReq [1, 2] false).1
        (DuplicateRequest exHeap exHReq [1, 2] false).2.1.headerRef
      = headerDen exHeap exHReq.headerRef :=
  (teeproxy_c3 exHeap exHReq [1, 2] false (by decide)).2.2.1.1

/-- C4 counterexample: a body stream that fails after two bytes does not abort
the request. The handler still relays the primary response (status 200 written
to the caller, so the primary dispatch happened) and still starts the shadow
dispatch, both copies carrying the prefix read before the failure; no
server-error response exists anywhere in this path. -/
theorem teeproxy_c4_counterexample :
    (serveHTTP [] 0 false exReq [104, 105] true (.success exPResp)
        (.ran (.success exSResp))).callerStatus = some 200 ∧
    (serveHTTP [] 0 false exReq [104, 105] true (.success exPResp)
        (.ran (.success exSResp))).shadowStarted = true ∧
    (serveHTTP [] 0 false exReq [104, 105] true (.success exPResp)
        (.ran (.success exSResp))).primaryRequest.body = [104, 105] ∧
    (serveHTTP [] 0 false exReq [104, 105] true (.success exPResp)
        (.ran (.success exSResp))).shadowRequest.body = [104, 105] := by
  decide

/-- C4 amended: a failure of the inbound body stream is ignored, not fatal.
DuplicateRequest and the whole handler behave identically with and without the
read error: both copies carry the prefix that was read, and the request
proceeds to both dispatches exactly as in the error-free case. -/
theorem teeproxy_c4_amended (h : Heap) (req : HRequest) (sb : List Nat)
    (cache : Cache) (now : Nat) (debug : Bool) (r : Request)
    (pr : DispatchResult) (so : ShadowOutcome) :
    DuplicateRequest h req sb true = DuplicateRequest h req sb false ∧
    serveHTTP cache now debug r sb true pr so = serveHTTP cache now debug r sb false pr so ∧
    bufObj (DuplicateRequest h req sb true).1
        (DuplicateRequest h req sb true).2.1.bodyRef = sb ∧
    bufObj (DuplicateRequest h req sb true).1
        (DuplicateRequest h req sb true).2.2.bodyRef = sb :=
  ⟨rfl, by cases pr <;> rfl, (DupReq_bufs h req sb true).1, (DupReq_bufs h req sb true).2.1⟩

/-- C5: when the primary dispatch fails (connect, send or receive), the
handler returns having written nothing to the caller, without starting the
detached shadow unit, and without touching the cache. -/
theorem teeproxy_c5 (cache : Cache) (now : Nat) (debug : Bool) (req : Request)
    (sb : List Nat) (se : Bool) (pr : DispatchResult) (so : ShadowOutcome)
    (hfail : dispatchFailed pr = true) :
    (serveHTTP cache now debug req sb se pr so).callerStatus = none ∧
    (serveHTTP cache now debug req sb se pr so).callerHeaders = [] ∧
    (serveHTTP cache now debug req sb se pr so).callerBody = [] ∧
    (serveHTTP cache now debug req sb se pr so).shadowStarted = false ∧
    (serveHTTP cache now debug req sb se pr so).cache = cache ∧
    (serveHTTP cache now debug req sb se pr so).shadowLogs = [] := by
  cases pr with
  | connectFail => exact ⟨rfl, rfl, rfl, rfl, rfl, rfl⟩
  | sendFail => exact ⟨rfl, rfl, rfl, rfl, rfl, rfl⟩
  | recvFail => exact ⟨rfl, rfl, rfl, rfl, rfl, rfl⟩
  | success r => simp [dispatchFailed] at hfail

/-- C5 witness: the concrete aborted request writes nothing and starts no
shadow work. -/
theorem teeproxy_c5_witness :
    (serveHTTP exCacheHit 3 true exReq [] false .connectFail
        (.ran (.success exSResp))).callerStatus = none ∧
    (serveHTTP exCacheHit 3 true exReq [] false .connectFail
        (.ran (.success exSResp))).callerHeaders = [] ∧
    (serveHTTP exCacheHit 3 true exReq [] false .connectFail
        (.ran (.success exSResp))).callerBody = [] ∧
    (serveHTTP exCacheHit 3 true exReq [] false .connectFail
        (.ran (.success exSResp))).shadowStarted = false ∧
    (serveHTTP exCacheHit 3 true exReq [] false .connectFail
        (.ran (.success exSResp))).cache = exCacheHit ∧
    (serveHTTP exCacheHit 3 true exReq [] false .connectFail
        (.ran (.success exSResp))).shadowLogs = [] :=
  teeproxy_c5 exCacheHit 3 true exReq [] false .connectFail
    (.ran (.success exSResp)) (by decide)

/-- C6: the replacement cookie built on a cache hit preserves the name, path,
domain, expiry, max-age, secure and http-only attributes of the cookie found
in the inbound request, changing only the value to the mapped shadow-session
value; and this replacement cookie is exactly what the rewrite serializes into
the shadow copy's Cookie header. -/
theorem teeproxy_c6 :
    (∀ (c : Cookie) (sid : String),
       (alternateCookieOf c sid).name = c.name ∧
       (alternateCookieOf c sid).value = sid ∧
       (alternateCookieOf c sid).path = c.path ∧
       (alternateCookieOf c sid).domain = c.domain ∧
       (alternateCookieOf c sid).expires = c.expires ∧
       (alternateCookieOf c sid).maxAge = c.maxAge ∧
       (alternateCookieOf c sid).secure = c.secure ∧
       (alternateCookieOf c sid).httpOnly = c.httpOnly) ∧
    (∀ (cache : Cache) (now : Nat) (oh : Headers) (altReq : Request)
       (c : Cookie) (sid : String),
       reqCookie oh sessionCookieName = some c →
       cacheGet cache now c.value = some sid →
       rewriteShadow cache now oh altReq
         = { altReq with
             header := headerSet (headerDel altReq.header "Cookie") "Cookie"
                 (cookieSerialize (alternateCookieOf c sid)) }) :=
  ⟨fun _ _ => ⟨rfl, rfl, rfl, rfl, rfl, rfl, rfl, rfl⟩,
   fun cache now oh altReq c sid hc hg => rewriteShadow_hit cache now oh altReq c sid hc hg⟩

/-- C6 witness: the concrete hit rewrites the shadow request with the
replacement cookie. -/
theorem teeproxy_c6_witness :
    rewriteShadow exCacheHit 0 exReq.header exReq
      = { exReq with
          header := headerSet (headerDel exReq.header "Cookie") "Cookie"
              (cookieSerialize (alternateCookieOf exCookie "qqq")) } :=
  teeproxy_c6.2 exCacheHit 0 exReq.header exReq exCookie "qqq" (by decide) (by decide)

/-- C7 counterexample: the inbound-request lookup is NOT case-insensitive. A
request whose Cookie header carries phpsessid=abc (a capitalization variant of
the designated name) is not found by the handler's request-side lookup, even
though an unfiltered parse of the same header yields a cookie whose name is
fold-equal to PHPSESSID; consequently, with a cache mapping present for abc,
the shadow copy is left unrewritten. -/
theorem teeproxy_c7_counterexample :
    reqCookie exHeaderLower "PHPSESSID" = none ∧
    (∃ c ∈ readCookies exHeaderLower "", eqFold c.name "PHPSESSID" = true) ∧
    (serveHTTP exCacheHit 0 false exReqLower [] false .connectFail
        (.ran .connectFail)).shadowRequest.header = exHeaderLower := by
  refine ⟨by decide, ⟨{ name := "phpsessid", value := "abc" }, by decide, by decide⟩, by decide⟩

/-- C7 amended: only the response-side lookups (FindCookie, used for the
reference-cookie capture out of the primary response and for the cache-update
check on the shadow response) match the cookie name case-insensitively; the
inbound-request lookup matches the designated name exactly, case-sensitively. -/
theorem teeproxy_c7 :
    (∀ (resp : Response) (name : String) (c : Cookie),
       FindCookie resp name = some c → eqFold c.name name = true) ∧
    (∀ (resp : Response) (name : String) (c : Cookie),
       c ∈ resp.cookies → eqFold c.name name = true →
       ∃ d, FindCookie resp name = some d) ∧
    (∀ (hs : Headers) (name : String) (c : Cookie),
       reqCookie hs name = some c → c.name = name) :=
  ⟨FindCookie_eqFold, FindCookie_found, reqCookie_exact⟩

/-- C7 witness: FindCookie finds the differently capitalized shadow session
cookie, and the request-side lookup returns a cookie named exactly as asked. -/
theorem teeproxy_c7_witness :
    eqFold exSCookie.name "PHPSESSID" = true ∧ exCookie.name = "PHPSESSID" :=
  ⟨teeproxy_c7.1 exSResp "PHPSESSID" exSCookie (by decide),
   teeproxy_c7.2.2 exHeader "PHPSESSID" exCookie (by decide)⟩

/-- C8: whatever happens inside the detached shadow unit, including a panic,
is contained there: the caller-facing status, headers and body do not depend
on the shadow outcome in any way; a shadow failure leaves the cache untouched;
failures are logged exactly when the debug flag is set and are silently
dropped otherwise. -/
theorem teeproxy_c8 (cache : Cache) (now : Nat) (debug : Bool) (req : Request)
    (sb : List Nat) (se : Bool) (pr : DispatchResult) :
    (∀ so1 so2,
       (serveHTTP cache now debug req sb se pr so1).callerStatus
         = (serveHTTP cache now debug req sb se pr so2).callerStatus ∧
       (serveHTTP cache now debug req sb se pr so1).callerHeaders
         = (serveHTTP cache now debug req sb se pr so2).callerHeaders ∧
       (serveHTTP cache now debug req sb se pr so1).callerBody
         = (serveHTTP cache now debug req sb se pr so2).callerBody) ∧
    (∀ so, debug = false →
       (serveHTTP cache now debug req sb se pr so).shadowLogs = []) ∧
    (∀ resp so, pr = .success resp → debug = true → shadowFailed so = true →
       (serveHTTP cache now debug req sb se pr so).shadowLogs ≠ []) ∧
    (∀ so, shadowFailed so = true →
       (serveHTTP cache now debug req sb se pr so).cache = cache) := by
  refine ⟨?_, ?_, ?_, ?_⟩
  · intro so1 so2
    cases pr <;> exact ⟨rfl, rfl, rfl⟩
  · rintro so rfl
    cases pr with
    | connectFail => rfl
    | sendFail => rfl
    | recvFail => rfl
    | success resp =>
      exact shadowUnit_logs_nodebug cache now (FindCookie resp sessionCookieName) so
  · rintro resp so rfl rfl hf
    show (shadowUnit cache now true (FindCookie resp sessionCookieName) so).2 ≠ []
    cases so with
    | panicked => exact List.cons_ne_nil _ _
    | ran r =>
      cases r with
      | connectFail => exact List.cons_ne_nil _ _
      | sendFail => exact List.cons_ne_nil _ _
      | recvFail => exact List.cons_ne_nil _ _
      | success sresp => simp [shadowFailed] at hf
  · intro so hf
    cases pr with
    | connectFail => rfl
    | sendFail => rfl
    | recvFail => rfl
    | success resp =>
      exact shadowUnit_failed cache now debug (FindCookie resp sessionCookieName) so hf

/-- C8 witness: a panic inside the shadow unit under debug mode leaves a log
line, and the caller output equals the output of a successful shadow run. -/
theorem teeproxy_c8_witness :
    (serveHTTP [] 0 true exReq [] false (.success exPResp) .panicked).shadowLogs ≠ [] ∧
    (serveHTTP [] 0 true exReq [] false (.success exPResp) .panicked).callerStatus
      = (serveHTTP [] 0 true exReq [] false (.success exPResp)
          (.ran (.success exSResp))).callerStatus :=
  ⟨(teeproxy_c8 [] 0 true exReq [] false (.success exPResp)).2.2.1 exPResp .panicked
      rfl rfl (by decide),
   ((teeproxy_c8 [] 0 true exReq [] false (.success exPResp)).1 .panicked
      (.ran (.success exSResp))).1⟩

/-- C9: when the primary dispatch succeeds, the caller receives exactly the
primary response's status code, all of its headers verbatim (given the Go map
invariant that header keys are unique), and its body bytes unmodified. -/
theorem teeproxy_c9 (cache : Cache) (now : Nat) (debug : Bool) (req : Request)
    (sb : List Nat) (se : Bool) (so : ShadowOutcome) (resp : Response)
    (hnd : (resp.header.map Prod.fst).Nodup) :
    (serveHTTP cache now debug req sb se (.success resp) so).callerStatus
      = some resp.statusCode ∧
    (serveHTTP cache now debug req sb se (.success resp) so).callerHeaders
      = resp.header ∧
    (serveHTTP cache now debug req sb se (.success resp) so).callerBody
      = resp.body := by
  refine ⟨rfl, ?_, rfl⟩
  show copyHeaders [] resp.header = resp.header
  rw [copyHeaders_append resp.header [] hnd (fun p _ => rfl)]
  exact List.nil_append _

/-- C9 witness: the concrete primary response is relayed verbatim. -/
theorem teeproxy_c9_witness :
    (serveHTTP [] 0 false exReq [] false (.success exPResp)
        (.ran .connectFail)).callerHeaders = exPResp.header :=
  (teeproxy_c9 [] 0 false exReq [] false (.ran .connectFail) exPResp (by decide)).2.1

/-- C10: the two duplicated copies alias the original URL object: both hold
the original URL reference (no fresh URL is allocated), so replacing the URL
through one copy is observed through the other copy and through the original
request, unlike the header maps and body buffers, which are distinct
allocations. -/
theorem teeproxy_c10 (h : Heap) (req : HRequest) (sb : List Nat) (se : Bool)
    (hu : req.urlRef < h.urls.length) :
    (DuplicateRequest h req sb se).2.1.urlRef = req.urlRef ∧
    (DuplicateRequest h req sb se).2.2.urlRef = req.urlRef ∧
    (∀ u, urlObj (setURL (DuplicateRequest h req sb se).1
        (DuplicateRequest h req sb se).2.1.urlRef u)
        (DuplicateRequest h req sb se).2.2.urlRef = u) ∧
    (∀ u, urlObj (setURL (DuplicateRequest h req sb se).1
        (DuplicateRequest h req sb se).2.1.urlRef u) req.urlRef = u) ∧
    (DuplicateRequest h req sb se).2.1.headerRef
      ≠ (DuplicateRequest h req sb se).2.2.headerRef ∧
    (DuplicateRequest h req sb se).2.1.bodyRef
      ≠ (DuplicateRequest h req sb se).2.2.bodyRef := by
  refine ⟨rfl, rfl, ?_, ?_,
    (DupReq_headerRefs h req sb se).2.2, (DupReq_bufs h req sb se).2.2⟩ <;>
  · intro u
    show ((setURL (DuplicateRequest h req sb se).1 req.urlRef u)).urls.getD
        req.urlRef ⟨"", "", ""⟩ = u
    rw [show (setURL (DuplicateRequest h req sb se).1 req.urlRef u).urls
          = (DuplicateRequest h req sb se).1.urls.set req.urlRef u from rfl]
    rw [DupReq_urls h req sb se]
    exact tpGetD_set_self h.urls req.urlRef u _ hu

/-- C10 witness: on the concrete heap both copies carry the original URL
reference. -/
theorem teeproxy_c10_witness :
    (DuplicateRequest exHeap exHReq [1] true).2.1.urlRef = exHReq.urlRef ∧
    (DuplicateRequest exHeap exHReq [1] true).2.2.urlRef = exHReq.urlRef :=
  ⟨(teeproxy_c10 exHeap exHReq [1] true (by decide)).1,
   (teeproxy_c10 exHeap exHReq [1] true (by decide)).2.1⟩

/-- Sanity facts about the cookie machinery on concrete headers: the filtered
request-side parse finds the exactly named cookie, also among several, misses
a differently capitalized one, and the delete-then-add rewrite leaves a single
replacement Cookie line. -/
theorem cookieMachinery_sanity :
    reqCookie [("Cookie", ["PHPSESSID=abc"])] "PHPSESSID"
      = some { name := "PHPSESSID", value := "abc" } ∧
    reqCookie [("Cookie", ["phpsessid=abc"])] "PHPSESSID" = none ∧
    reqCookie [("Cookie", ["foo=1; PHPSESSID=abc; bar=2"])] "PHPSESSID"
      = some { name := "PHPSESSID", value := "abc" } ∧
    addCookie (headerDel [("Cookie", ["PHPSESSID=abc; foo=1"]), ("Accept", ["x"])] "Cookie")
      { name := "PHPSESSID", value := "qqq" }
      = [("Accept", ["x"]), ("Cookie", ["PHPSESSID=qqq"])] := by
  decide
